import Mathlib

/-!
Shallow embedding of the MedSecure smart-contract core:
ConsentContract, DataHashContract and AuditContract
(src/smart_contracts/ConsentContract.sol, src/smart_contracts/DataHashContract.sol).

Solidity addresses are modelled as natural numbers with 0 playing the role
of address(0); uint256 values are modelled as Nat (no arithmetic in the
contracts can overflow: the only arithmetic is array-length bookkeeping);
Solidity mappings are modelled as total functions returning the default
struct value for absent keys, exactly as the EVM storage does; `require`
failures (reverts) are modelled as Except.error carrying the revert string,
and a reverted call leaves the pre-state unchanged (the exec wrappers below).
keccak256 comparison of strings in verifyDataHash is modelled as string
equality (keccak256 is injective on the bytes for all practical purposes and
the contract uses it purely as an equality test on strings).
-/

namespace MedSecure

/-- Principal / account identity; 0 is the null address, address(0). -/
abbrev Addr := Nat

/-- Whether a contract call committed (no revert). -/
def isOk {α : Type} : Except String α → Bool
  | Except.ok _ => true
  | Except.error _ => false

/-! ## ConsentContract -/

/-- ConsentContract.Consent struct. The Solidity field `exists` is called
`exists_` here because `exists` is reserved in Lean. -/
structure Consent where
  exists_ : Bool
  accessLevel : String
  startDate : Nat
  endDate : Nat
  purpose : String
deriving Repr, DecidableEq

/-- Default value of the Consent struct: what an EVM mapping returns for an
absent key, and what `delete` resets a slot to. -/
def emptyConsent : Consent :=
  { exists_ := false, accessLevel := "", startDate := 0, endDate := 0, purpose := "" }

/-- The `consents` double mapping: patient address => provider address => Consent. -/
def ConsentState : Type := Addr → Addr → Consent

/-- Fresh contract storage: every slot holds the default struct. -/
def initialConsentState : ConsentState := fun _ _ => emptyConsent

/-- Write one slot of the `consents` mapping. -/
def setConsent (st : ConsentState) (patient provider : Addr) (c : Consent) : ConsentState :=
  fun p q => if p = patient ∧ q = provider then c else st p q

/-- Events emitted by ConsentContract. -/
inductive ConsentEvent where
  | consentGranted (patient provider : Addr) (accessLevel : String)
      (startDate endDate : Nat) (purpose : String)
  | consentRevoked (patient provider : Addr)
deriving Repr, DecidableEq

/-- ConsentContract.grantConsent. `sender` is msg.sender, `now` is
block.timestamp. -/
def grantConsent (st : ConsentState) (sender provider : Addr) (accessLevel : String)
    (startDate endDate : Nat) (purpose : String) (now : Nat) :
    Except String (ConsentState × ConsentEvent) :=
  if ¬ provider = 0 then
    if startDate < endDate then
      if endDate > now then
        Except.ok
          (setConsent st sender provider
            { exists_ := true, accessLevel := accessLevel, startDate := startDate,
              endDate := endDate, purpose := purpose },
           ConsentEvent.consentGranted sender provider accessLevel startDate endDate purpose)
      else Except.error "End date must be in the future"
    else Except.error "End date must be after start date"
  else Except.error "Invalid provider address"

/-- ConsentContract.revokeConsent. -/
def revokeConsent (st : ConsentState) (sender provider : Addr) :
    Except String (ConsentState × ConsentEvent) :=
  if ¬ provider = 0 then
    if (st sender provider).exists_ then
      Except.ok (setConsent st sender provider emptyConsent,
                 ConsentEvent.consentRevoked sender provider)
    else Except.error "Consent does not exist"
  else Except.error "Invalid provider address"

/-- ConsentContract.checkConsent: returns
(valid, accessLevel, startDate, endDate, purpose). -/
def checkConsent (st : ConsentState) (patient provider : Addr) (now : Nat) :
    Bool × String × Nat × Nat × String :=
  let consent := st patient provider
  (consent.exists_ && decide (now ≥ consent.startDate) && decide (now ≤ consent.endDate),
   consent.accessLevel, consent.startDate, consent.endDate, consent.purpose)

/-- ConsentContract.hasValidConsent. -/
def hasValidConsent (st : ConsentState) (patient provider : Addr) (now : Nat) : Bool :=
  let consent := st patient provider
  consent.exists_ && decide (now ≥ consent.startDate) && decide (now ≤ consent.endDate)

/-- Post-state of a grantConsent transaction: a revert leaves storage unchanged. -/
def execGrantConsent (st : ConsentState) (sender provider : Addr) (accessLevel : String)
    (startDate endDate : Nat) (purpose : String) (now : Nat) : ConsentState :=
  match grantConsent st sender provider accessLevel startDate endDate purpose now with
  | Except.ok (st', _) => st'
  | Except.error _ => st

/-- Post-state of a revokeConsent transaction: a revert leaves storage unchanged. -/
def execRevokeConsent (st : ConsentState) (sender provider : Addr) : ConsentState :=
  match revokeConsent st sender provider with
  | Except.ok (st', _) => st'
  | Except.error _ => st

/-- States of the consents mapping reachable from fresh storage by any
sequence of grantConsent / revokeConsent transactions. -/
inductive ConsentReachable : ConsentState → Prop where
  | init : ConsentReachable initialConsentState
  | grant (st : ConsentState) (sender provider : Addr) (accessLevel : String)
      (startDate endDate : Nat) (purpose : String) (now : Nat) :
      ConsentReachable st →
      ConsentReachable (execGrantConsent st sender provider accessLevel startDate endDate purpose now)
  | revoke (st : ConsentState) (sender provider : Addr) :
      ConsentReachable st →
      ConsentReachable (execRevokeConsent st sender provider)

/-- Storage well-formedness maintained by ConsentContract: an existing grant
has a non-degenerate time window, and an absent slot holds the default struct. -/
def ConsentWF (st : ConsentState) : Prop :=
  ∀ p q, ((st p q).exists_ = true → (st p q).startDate < (st p q).endDate) ∧
         ((st p q).exists_ = false → st p q = emptyConsent)

/-! ## DataHashContract -/

/-- DataHashContract.DataHashRecord struct. -/
structure DataHashRecord where
  dataHash : String
  timestamp : Nat
  dataType : String
  owner : Addr
  exists_ : Bool
deriving Repr, DecidableEq

/-- Default value of the DataHashRecord struct (absent mapping key). -/
def emptyDataHashRecord : DataHashRecord :=
  { dataHash := "", timestamp := 0, dataType := "", owner := 0, exists_ := false }

/-- Storage of DataHashContract: the `dataHashes` mapping (data ID => record)
and the `ownerDataIds` mapping (owner address => array of data IDs). -/
structure DataHashState where
  dataHashes : String → DataHashRecord
  ownerDataIds : Addr → List String

/-- Fresh DataHashContract storage. -/
def initialDataHashState : DataHashState :=
  { dataHashes := fun _ => emptyDataHashRecord, ownerDataIds := fun _ => [] }

/-- Events emitted by DataHashContract. -/
inductive DataHashEvent where
  | dataHashStored (dataId dataHash dataType : String) (timestamp : Nat) (owner : Addr)
  | dataHashUpdated (dataId oldHash newHash : String) (timestamp : Nat) (owner : Addr)
deriving Repr, DecidableEq

/-- DataHashContract.storeDataHash. `sender` is msg.sender. -/
def storeDataHash (st : DataHashState) (sender : Addr)
    (dataId dataHash dataType : String) (timestamp : Nat) :
    Except String (DataHashState × DataHashEvent) :=
  if dataId.length > 0 then
    if dataHash.length > 0 then
      if dataType.length > 0 then
        if (st.dataHashes dataId).exists_ then
          let oldHash := (st.dataHashes dataId).dataHash
          Except.ok
            ({ st with
                dataHashes := fun i =>
                  if i = dataId then
                    { st.dataHashes dataId with
                        dataHash := dataHash, timestamp := timestamp, dataType := dataType }
                  else st.dataHashes i },
             DataHashEvent.dataHashUpdated dataId oldHash dataHash timestamp sender)
        else
          Except.ok
            ({ dataHashes := fun i =>
                 if i = dataId then
                   { dataHash := dataHash, timestamp := timestamp, dataType := dataType,
                     owner := sender, exists_ := true }
                 else st.dataHashes i,
               ownerDataIds := fun a =>
                 if a = sender then st.ownerDataIds a ++ [dataId] else st.ownerDataIds a },
             DataHashEvent.dataHashStored dataId dataHash dataType timestamp sender)
      else Except.error "Data type cannot be empty"
    else Except.error "Data hash cannot be empty"
  else Except.error "Data ID cannot be empty"

/-- DataHashContract.verifyDataHash: returns
(isValid, storedHash, timestamp, dataType). The keccak256 comparison of the
two strings is modelled as string equality. -/
def verifyDataHash (st : DataHashState) (dataId dataHash : String) :
    Bool × String × Nat × String :=
  let record := st.dataHashes dataId
  if ¬ record.exists_ then (false, "", 0, "")
  else (record.dataHash == dataHash, record.dataHash, record.timestamp, record.dataType)

/-- DataHashContract.getDataHashCount. -/
def getDataHashCount (st : DataHashState) (owner : Addr) : Nat :=
  (st.ownerDataIds owner).length

/-- DataHashContract.getDataId. -/
def getDataId (st : DataHashState) (owner : Addr) (index : Nat) : Except String String :=
  if h : index < (st.ownerDataIds owner).length then
    Except.ok ((st.ownerDataIds owner).get ⟨index, h⟩)
  else Except.error "Index out of bounds"

/-- DataHashContract.getDataHashDetails: returns
(dataHash, timestamp, dataType, owner, exists). -/
def getDataHashDetails (st : DataHashState) (dataId : String) :
    String × Nat × String × Addr × Bool :=
  let record := st.dataHashes dataId
  (record.dataHash, record.timestamp, record.dataType, record.owner, record.exists_)

/-- DataHashContract.dataHashExists. -/
def dataHashExists (st : DataHashState) (dataId : String) : Bool :=
  (st.dataHashes dataId).exists_

/-- Post-state of a storeDataHash transaction: a revert leaves storage unchanged. -/
def execStoreDataHash (st : DataHashState) (sender : Addr)
    (dataId dataHash dataType : String) (timestamp : Nat) : DataHashState :=
  match storeDataHash st sender dataId dataHash dataType timestamp with
  | Except.ok (st', _) => st'
  | Except.error _ => st

/-- States of DataHashContract storage reachable from fresh storage by any
sequence of storeDataHash transactions (the only mutating entry point). -/
inductive DataHashReachable : DataHashState → Prop where
  | init : DataHashReachable initialDataHashState
  | store (st : DataHashState) (sender : Addr) (dataId dataHash dataType : String)
      (timestamp : Nat) :
      DataHashReachable st →
      DataHashReachable (execStoreDataHash st sender dataId dataHash dataType timestamp)

/-- Storage well-formedness maintained by DataHashContract: each owner's id
list has no duplicates, and every listed id has an existing record owned by
that owner. -/
def DataHashWF (st : DataHashState) : Prop :=
  (∀ a, (st.ownerDataIds a).Nodup) ∧
  (∀ a id, id ∈ st.ownerDataIds a →
     (st.dataHashes id).exists_ = true ∧ (st.dataHashes id).owner = a)

/-! ## AuditContract -/

/-- AuditContract.AccessLog struct. -/
structure AccessLog where
  patient : Addr
  accessor : Addr
  resourceId : String
  accessType : String
  timestamp : Nat
deriving Repr, DecidableEq

/-- Storage of AuditContract: the global `accessLogs` array and the
`patientAccessLogs` index (patient address => array of positions into the
global array). -/
structure AuditState where
  accessLogs : List AccessLog
  patientAccessLogs : Addr → List Nat

/-- Fresh AuditContract storage. -/
def initialAuditState : AuditState :=
  { accessLogs := [], patientAccessLogs := fun _ => [] }

/-- Events emitted by AuditContract. -/
inductive AuditEvent where
  | accessLogged (patient accessor : Addr) (resourceId accessType : String) (timestamp : Nat)
deriving Repr, DecidableEq

/-- Read accessLogs[i]; indices stored in the contract are always in bounds. -/
def logAt (st : AuditState) (i : Nat) : AccessLog :=
  st.accessLogs.getD i { patient := 0, accessor := 0, resourceId := "", accessType := "",
                         timestamp := 0 }

/-- AuditContract.logAccess. -/
def logAccess (st : AuditState) (patient accessor : Addr)
    (resourceId accessType : String) (timestamp : Nat) :
    Except String (AuditState × AuditEvent) :=
  if ¬ patient = 0 then
    if ¬ accessor = 0 then
      if resourceId.length > 0 then
        if accessType.length > 0 then
          let log : AccessLog :=
            { patient := patient, accessor := accessor, resourceId := resourceId,
              accessType := accessType, timestamp := timestamp }
          let logIndex := st.accessLogs.length
          Except.ok
            ({ accessLogs := st.accessLogs ++ [log],
               patientAccessLogs := fun a =>
                 if a = patient then st.patientAccessLogs a ++ [logIndex]
                 else st.patientAccessLogs a },
             AuditEvent.accessLogged patient accessor resourceId accessType timestamp)
        else Except.error "Access type cannot be empty"
      else Except.error "Resource ID cannot be empty"
    else Except.error "Invalid accessor address"
  else Except.error "Invalid patient address"

/-- AuditContract.getAccessLogCount. -/
def getAccessLogCount (st : AuditState) (patient : Addr) : Nat :=
  (st.patientAccessLogs patient).length

/-- AuditContract.getAccessLog: returns
(patient, accessor, resourceId, accessType, timestamp). -/
def getAccessLog (st : AuditState) (patient : Addr) (index : Nat) :
    Except String (Addr × Addr × String × String × Nat) :=
  if h : index < (st.patientAccessLogs patient).length then
    let log := logAt st ((st.patientAccessLogs patient).get ⟨index, h⟩)
    Except.ok (log.patient, log.accessor, log.resourceId, log.accessType, log.timestamp)
  else Except.error "Index out of bounds"

/-- First pass of the bounded two-pass scan: walk the index list with running
counter `count`, incrementing on each index satisfying `p`, and stop as soon
as the counter reaches `maxResults` (the loop condition
i < length AND count < maxResults). -/
def countPass (p : Nat → Bool) : List Nat → Nat → Nat → Nat
  | [], _, count => count
  | i :: rest, maxResults, count =>
    if count < maxResults then
      if p i then countPass p rest maxResults (count + 1)
      else countPass p rest maxResults count
    else count

/-- Second pass of the bounded two-pass scan: fill a result of exactly `need`
entries with the indices satisfying `p`, in scan order, stopping when full. -/
def fillPass (p : Nat → Bool) : List Nat → Nat → List Nat
  | [], _ => []
  | i :: rest, need =>
    if 0 < need then
      if p i then i :: fillPass p rest (need - 1)
      else fillPass p rest need
    else []

/-- Timestamp filter of getAccessLogsInTimeRange on the log at index `i`. -/
def inTimeRange (st : AuditState) (startTime endTime : Nat) (i : Nat) : Bool :=
  decide ((logAt st i).timestamp ≥ startTime) && decide ((logAt st i).timestamp ≤ endTime)

/-- AuditContract.getAccessLogsInTimeRange: two-pass bounded scan over the
patient's index list; returns positions into the global accessLogs array. -/
def getAccessLogsInTimeRange (st : AuditState) (patient : Addr)
    (startTime endTime maxResults : Nat) : Except String (List Nat) :=
  if startTime ≤ endTime then
    let patientLogs := st.patientAccessLogs patient
    let count := countPass (inTimeRange st startTime endTime) patientLogs maxResults 0
    Except.ok (fillPass (inTimeRange st startTime endTime) patientLogs count)
  else Except.error "Start time must be before end time"

/-- Accessor filter of getAccessLogsByAccessor on the log at index `i`. -/
def byAccessor (st : AuditState) (accessor : Addr) (i : Nat) : Bool :=
  (logAt st i).accessor == accessor

/-- AuditContract.getAccessLogsByAccessor: two-pass bounded scan over the
whole accessLogs array (positions 0 .. length-1). -/
def getAccessLogsByAccessor (st : AuditState) (accessor : Addr) (maxResults : Nat) :
    List Nat :=
  let idxs := List.range st.accessLogs.length
  let count := countPass (byAccessor st accessor) idxs maxResults 0
  fillPass (byAccessor st accessor) idxs count

/-- Post-state of a logAccess transaction: a revert leaves storage unchanged. -/
def execLogAccess (st : AuditState) (patient accessor : Addr)
    (resourceId accessType : String) (timestamp : Nat) : AuditState :=
  match logAccess st patient accessor resourceId accessType timestamp with
  | Except.ok (st', _) => st'
  | Except.error _ => st

/-- States of AuditContract storage reachable from fresh storage by any
sequence of logAccess transactions (the only mutating entry point). -/
inductive AuditReachable : AuditState → Prop where
  | init : AuditReachable initialAuditState
  | log (st : AuditState) (patient accessor : Addr) (resourceId accessType : String)
      (timestamp : Nat) :
      AuditReachable st →
      AuditReachable (execLogAccess st patient accessor resourceId accessType timestamp)

/-- Storage well-formedness maintained by AuditContract: every position in a
patient's index list is in bounds of the global array and points at a log of
that patient. -/
def AuditWF (st : AuditState) : Prop :=
  ∀ a i, i ∈ st.patientAccessLogs a →
    i < st.accessLogs.length ∧ (logAt st i).patient = a

/-- Modelled from the spec: the single forward pass with early exit once
maxResults matches are collected, which the spec allows as a reimplementation
of the two-pass bounded scan. Used only to compare against the two-pass
algorithm embedded from the source. -/
def singlePassScan (p : Nat → Bool) : List Nat → Nat → List Nat
  | [], _ => []
  | i :: rest, maxResults =>
    if maxResults = 0 then []
    else if p i then i :: singlePassScan p rest (maxResults - 1)
    else singlePassScan p rest maxResults

/-! ### Concrete example storages used by the claim instantiations -/

/-- One record "rec-1" stored by owner 1 with digest "h1", type "t1" and
creation timestamp 5. -/
def c1State : DataHashState :=
  execStoreDataHash initialDataHashState 1 "rec-1" "h1" "t1" 5

/-- At time 5, patient 1 grants provider 2 a consent with empty accessLevel,
empty purpose, validFrom 0 and validUntil 10 — grantConsent accepts all of
these. -/
def c9State : ConsentState :=
  execGrantConsent initialConsentState 1 2 "" 0 10 "" 5

/-- Two access logs for patient 1 (by accessors 2 and 3) at timestamps 5
and 50. -/
def c5State : AuditState :=
  execLogAccess (execLogAccess initialAuditState 1 2 "r1" "view" 5) 1 3 "r2" "view" 50

/-- One record "id1" stored by owner 1 with digest "h", type "t" at
timestamp 0. -/
def c10State : DataHashState :=
  execStoreDataHash initialDataHashState 1 "id1" "h" "t" 0

/-! ## Unfolding lemmas for the transactions -/

theorem grantConsent_ok (st : ConsentState) (sender provider : Addr) (al : String)
    (sd ed : Nat) (pu : String) (now : Nat)
    (h1 : provider ≠ 0) (h2 : sd < ed) (h3 : ed > now) :
    grantConsent st sender provider al sd ed pu now =
      Except.ok (setConsent st sender provider
          { exists_ := true, accessLevel := al, startDate := sd, endDate := ed, purpose := pu },
        ConsentEvent.consentGranted sender provider al sd ed pu) := by
  unfold grantConsent
  rw [if_pos h1, if_pos h2, if_pos h3]

theorem grantConsent_fails_iff (st : ConsentState) (sender provider : Addr) (al : String)
    (sd ed : Nat) (pu : String) (now : Nat) :
    isOk (grantConsent st sender provider al sd ed pu now) = false ↔
      provider = 0 ∨ ed ≤ sd ∨ ed ≤ now := by
  unfold grantConsent
  by_cases h1 : provider = 0 <;> by_cases h2 : sd < ed <;> by_cases h3 : ed > now <;>
    simp [h1, h2, h3, isOk] <;> omega

theorem execGrantConsent_of_fail (st : ConsentState) (sender provider : Addr) (al : String)
    (sd ed : Nat) (pu : String) (now : Nat)
    (h : isOk (grantConsent st sender provider al sd ed pu now) = false) :
    execGrantConsent st sender provider al sd ed pu now = st := by
  unfold execGrantConsent
  cases hg : grantConsent st sender provider al sd ed pu now with
  | ok v => rw [hg] at h; simp [isOk] at h
  | error e => rfl

theorem revokeConsent_ok (st : ConsentState) (sender provider : Addr)
    (h1 : provider ≠ 0) (h2 : (st sender provider).exists_ = true) :
    revokeConsent st sender provider =
      Except.ok (setConsent st sender provider emptyConsent,
        ConsentEvent.consentRevoked sender provider) := by
  unfold revokeConsent
  rw [if_pos h1, if_pos h2]

theorem revokeConsent_fails_iff (st : ConsentState) (sender provider : Addr) :
    isOk (revokeConsent st sender provider) = false ↔
      provider = 0 ∨ (st sender provider).exists_ = false := by
  unfold revokeConsent
  by_cases h1 : provider = 0 <;> by_cases h2 : (st sender provider).exists_ = true <;>
    simp [h1, h2, isOk]

theorem execRevokeConsent_of_fail (st : ConsentState) (sender provider : Addr)
    (h : isOk (revokeConsent st sender provider) = false) :
    execRevokeConsent st sender provider = st := by
  unfold execRevokeConsent
  cases hg : revokeConsent st sender provider with
  | ok v => rw [hg] at h; simp [isOk] at h
  | error e => rfl

theorem storeDataHash_update (st : DataHashState) (sender : Addr)
    (dataId dataHash dataType : String) (timestamp : Nat)
    (h1 : dataId.length > 0) (h2 : dataHash.length > 0) (h3 : dataType.length > 0)
    (hex : (st.dataHashes dataId).exists_ = true) :
    storeDataHash st sender dataId dataHash dataType timestamp =
      Except.ok
        ({ st with
            dataHashes := fun i =>
              if i = dataId then
                { st.dataHashes dataId with
                    dataHash := dataHash, timestamp := timestamp, dataType := dataType }
              else st.dataHashes i },
         DataHashEvent.dataHashUpdated dataId (st.dataHashes dataId).dataHash dataHash
           timestamp sender) := by
  unfold storeDataHash
  rw [if_pos h1, if_pos h2, if_pos h3, if_pos hex]

theorem storeDataHash_create (st : DataHashState) (sender : Addr)
    (dataId dataHash dataType : String) (timestamp : Nat)
    (h1 : dataId.length > 0) (h2 : dataHash.length > 0) (h3 : dataType.length > 0)
    (hex : (st.dataHashes dataId).exists_ = false) :
    storeDataHash st sender dataId dataHash dataType timestamp =
      Except.ok
        ({ dataHashes := fun i =>
             if i = dataId then
               { dataHash := dataHash, timestamp := timestamp, dataType := dataType,
                 owner := sender, exists_ := true }
             else st.dataHashes i,
           ownerDataIds := fun a =>
             if a = sender then st.ownerDataIds a ++ [dataId] else st.ownerDataIds a },
         DataHashEvent.dataHashStored dataId dataHash dataType timestamp sender) := by
  unfold storeDataHash
  rw [if_pos h1, if_pos h2, if_pos h3, if_neg]
  rw [hex]
  exact Bool.false_ne_true

theorem logAccess_ok (st : AuditState) (patient accessor : Addr)
    (resourceId accessType : String) (timestamp : Nat)
    (h1 : patient ≠ 0) (h2 : accessor ≠ 0)
    (h3 : resourceId.length > 0) (h4 : accessType.length > 0) :
    logAccess st patient accessor resourceId accessType timestamp =
      Except.ok
        ({ accessLogs := st.accessLogs ++
             [{ patient := patient, accessor := accessor, resourceId := resourceId,
                accessType := accessType, timestamp := timestamp }],
           patientAccessLogs := fun a =>
             if a = patient then st.patientAccessLogs a ++ [st.accessLogs.length]
             else st.patientAccessLogs a },
         AuditEvent.accessLogged patient accessor resourceId accessType timestamp) := by
  unfold logAccess
  rw [if_pos h1, if_pos h2, if_pos h3, if_pos h4]

theorem execLogAccess_ok (st : AuditState) (patient accessor : Addr)
    (resourceId accessType : String) (timestamp : Nat)
    (h1 : patient ≠ 0) (h2 : accessor ≠ 0)
    (h3 : resourceId.length > 0) (h4 : accessType.length > 0) :
    execLogAccess st patient accessor resourceId accessType timestamp =
      { accessLogs := st.accessLogs ++
          [{ patient := patient, accessor := accessor, resourceId := resourceId,
             accessType := accessType, timestamp := timestamp }],
        patientAccessLogs := fun a =>
          if a = patient then st.patientAccessLogs a ++ [st.accessLogs.length]
          else st.patientAccessLogs a } := by
  unfold execLogAccess
  rw [logAccess_ok st patient accessor resourceId accessType timestamp h1 h2 h3 h4]

theorem execLogAccess_of_fail (st : AuditState) (patient accessor : Addr)
    (resourceId accessType : String) (timestamp : Nat)
    (h : isOk (logAccess st patient accessor resourceId accessType timestamp) = false) :
    execLogAccess st patient accessor resourceId accessType timestamp = st := by
  unfold execLogAccess
  cases hg : logAccess st patient accessor resourceId accessType timestamp with
  | ok v => rw [hg] at h; simp [isOk] at h
  | error e => rfl

theorem execGrantConsent_of_ok (st : ConsentState) (sender provider : Addr) (al : String)
    (sd ed : Nat) (pu : String) (now : Nat) (st' : ConsentState) (ev : ConsentEvent)
    (h : grantConsent st sender provider al sd ed pu now = Except.ok (st', ev)) :
    execGrantConsent st sender provider al sd ed pu now = st' := by
  unfold execGrantConsent
  rw [h]

theorem execRevokeConsent_of_ok (st : ConsentState) (sender provider : Addr)
    (st' : ConsentState) (ev : ConsentEvent)
    (h : revokeConsent st sender provider = Except.ok (st', ev)) :
    execRevokeConsent st sender provider = st' := by
  unfold execRevokeConsent
  rw [h]

theorem execStoreDataHash_of_ok (st : DataHashState) (sender : Addr)
    (dataId dataHash dataType : String) (timestamp : Nat)
    (st' : DataHashState) (ev : DataHashEvent)
    (h : storeDataHash st sender dataId dataHash dataType timestamp = Except.ok (st', ev)) :
    execStoreDataHash st sender dataId dataHash dataType timestamp = st' := by
  unfold execStoreDataHash
  rw [h]

theorem execStoreDataHash_of_fail (st : DataHashState) (sender : Addr)
    (dataId dataHash dataType : String) (timestamp : Nat)
    (h : isOk (storeDataHash st sender dataId dataHash dataType timestamp) = false) :
    execStoreDataHash st sender dataId dataHash dataType timestamp = st := by
  unfold execStoreDataHash
  cases hg : storeDataHash st sender dataId dataHash dataType timestamp with
  | ok v => rw [hg] at h; simp [isOk] at h
  | error e => rfl

/-! ## The bounded two-pass scan, reduced to filter-and-take -/

theorem countPass_eq (p : Nat → Bool) (idxs : List Nat) :
    ∀ maxResults count, count ≤ maxResults →
      countPass p idxs maxResults count = min (count + (idxs.filter p).length) maxResults := by
  induction idxs with
  | nil => intro m c h; simp [countPass]; omega
  | cons i rest ih =>
    intro m c h
    by_cases hc : c < m
    · by_cases hp : p i
      · rw [countPass, if_pos hc, if_pos hp, ih m (c + 1) hc, List.filter_cons, if_pos hp]
        simp only [List.length_cons]
        omega
      · rw [countPass, if_pos hc, if_neg hp, ih m c h, List.filter_cons, if_neg hp]
    · rw [countPass, if_neg hc]
      omega

theorem fillPass_eq (p : Nat → Bool) (idxs : List Nat) :
    ∀ need, fillPass p idxs need = (idxs.filter p).take need := by
  induction idxs with
  | nil => intro need; simp [fillPass]
  | cons i rest ih =>
    intro need
    by_cases hn : 0 < need
    · by_cases hp : p i
      · obtain ⟨k, rfl⟩ : ∃ k, need = k + 1 := ⟨need - 1, by omega⟩
        rw [fillPass, if_pos hn, if_pos hp, List.filter_cons, if_pos hp,
          List.take_succ_cons]
        simp only [Nat.add_sub_cancel]
        rw [ih k]
      · rw [fillPass, if_pos hn, if_neg hp, List.filter_cons, if_neg hp, ih need]
    · obtain rfl : need = 0 := by omega
      rw [fillPass, if_neg hn]
      simp

theorem take_min_length {α : Type} (xs : List α) (m : Nat) :
    xs.take (min xs.length m) = xs.take m := by
  rw [Nat.min_comm, ← List.take_take, List.take_length]

/-- The two passes together return the first maxResults matches in scan order. -/
theorem twoPass_eq (p : Nat → Bool) (idxs : List Nat) (maxResults : Nat) :
    fillPass p idxs (countPass p idxs maxResults 0) = (idxs.filter p).take maxResults := by
  rw [countPass_eq p idxs maxResults 0 (Nat.zero_le _), fillPass_eq]
  simp only [Nat.zero_add]
  exact take_min_length _ _

theorem getAccessLogsInTimeRange_ok (st : AuditState) (patient : Addr)
    (startTime endTime maxResults : Nat) (h : startTime ≤ endTime) :
    getAccessLogsInTimeRange st patient startTime endTime maxResults =
      Except.ok (((st.patientAccessLogs patient).filter
        (inTimeRange st startTime endTime)).take maxResults) := by
  unfold getAccessLogsInTimeRange
  rw [if_pos h]
  show Except.ok (fillPass _ _ (countPass _ _ _ 0)) = _
  rw [twoPass_eq]

theorem getAccessLogsByAccessor_eq (st : AuditState) (accessor : Addr) (maxResults : Nat) :
    getAccessLogsByAccessor st accessor maxResults =
      ((List.range st.accessLogs.length).filter (byAccessor st accessor)).take maxResults := by
  unfold getAccessLogsByAccessor
  rw [twoPass_eq]

/-! ## Well-formedness is an invariant of the reachable states -/

theorem consentWF_initial : ConsentWF initialConsentState := by
  intro p q
  constructor
  · intro h; simp [initialConsentState, emptyConsent] at h
  · intro _; rfl

theorem consentWF_grant (st : ConsentState) (hwf : ConsentWF st) (sender provider : Addr)
    (al : String) (sd ed : Nat) (pu : String) (now : Nat) :
    ConsentWF (execGrantConsent st sender provider al sd ed pu now) := by
  by_cases hok : isOk (grantConsent st sender provider al sd ed pu now) = false
  · rw [execGrantConsent_of_fail st sender provider al sd ed pu now hok]
    exact hwf
  · have h := (grantConsent_fails_iff st sender provider al sd ed pu now).not.mp hok
    push_neg at h
    obtain ⟨h1, h2, h3⟩ := h
    rw [execGrantConsent_of_ok st sender provider al sd ed pu now _ _
      (grantConsent_ok st sender provider al sd ed pu now h1 (by omega) (by omega))]
    intro p q
    simp only [setConsent]
    by_cases hpq : p = sender ∧ q = provider
    · rw [if_pos hpq]
      constructor
      · intro _; simpa using (by omega : sd < ed)
      · intro hfalse; simp at hfalse
    · rw [if_neg hpq]
      exact hwf p q

theorem consentWF_revoke (st : ConsentState) (hwf : ConsentWF st) (sender provider : Addr) :
    ConsentWF (execRevokeConsent st sender provider) := by
  by_cases hok : isOk (revokeConsent st sender provider) = false
  · rw [execRevokeConsent_of_fail st sender provider hok]
    exact hwf
  · have h := (revokeConsent_fails_iff st sender provider).not.mp hok
    push_neg at h
    obtain ⟨h1, h2⟩ := h
    rw [execRevokeConsent_of_ok st sender provider _ _
      (revokeConsent_ok st sender provider h1 (by simpa using h2))]
    intro p q
    simp only [setConsent]
    by_cases hpq : p = sender ∧ q = provider
    · rw [if_pos hpq]
      constructor
      · intro hh; simp [emptyConsent] at hh
      · intro _; rfl
    · rw [if_neg hpq]
      exact hwf p q

theorem consentWF_reachable (st : ConsentState) (h : ConsentReachable st) : ConsentWF st := by
  induction h with
  | init => exact consentWF_initial
  | grant st sender provider al sd ed pu now _ ih =>
      exact consentWF_grant st ih sender provider al sd ed pu now
  | revoke st sender provider _ ih => exact consentWF_revoke st ih sender provider

theorem dataHashWF_initial : DataHashWF initialDataHashState := by
  constructor
  · intro a; simp [initialDataHashState]
  · intro a id h; simp [initialDataHashState] at h

theorem dataHashWF_store (st : DataHashState) (hwf : DataHashWF st) (sender : Addr)
    (dataId dataHash dataType : String) (timestamp : Nat) :
    DataHashWF (execStoreDataHash st sender dataId dataHash dataType timestamp) := by
  by_cases h1 : dataId.length > 0
  case neg =>
    rw [execStoreDataHash_of_fail st sender dataId dataHash dataType timestamp
      (by unfold storeDataHash isOk; rw [if_neg h1])]
    exact hwf
  by_cases h2 : dataHash.length > 0
  case neg =>
    rw [execStoreDataHash_of_fail st sender dataId dataHash dataType timestamp
      (by unfold storeDataHash isOk; rw [if_pos h1, if_neg h2])]
    exact hwf
  by_cases h3 : dataType.length > 0
  case neg =>
    rw [execStoreDataHash_of_fail st sender dataId dataHash dataType timestamp
      (by unfold storeDataHash isOk; rw [if_pos h1, if_pos h2, if_neg h3])]
    exact hwf
  by_cases hex : (st.dataHashes dataId).exists_ = true
  · rw [execStoreDataHash_of_ok st sender dataId dataHash dataType timestamp _ _
      (storeDataHash_update st sender dataId dataHash dataType timestamp h1 h2 h3 hex)]
    obtain ⟨hnd, hmem⟩ := hwf
    constructor
    · intro a; exact hnd a
    · intro a id h
      have hold := hmem a id h
      by_cases hid : id = dataId
      · subst hid
        simpa using hold
      · simpa [hid] using hold
  · have hex' : (st.dataHashes dataId).exists_ = false := by
      cases hb : (st.dataHashes dataId).exists_
      · rfl
      · exact absurd hb hex
    rw [execStoreDataHash_of_ok st sender dataId dataHash dataType timestamp _ _
      (storeDataHash_create st sender dataId dataHash dataType timestamp h1 h2 h3 hex')]
    obtain ⟨hnd, hmem⟩ := hwf
    have hnotmem : ∀ a, dataId ∉ st.ownerDataIds a := by
      intro a hmem'
      have := (hmem a dataId hmem').1
      rw [hex'] at this
      exact Bool.false_ne_true this
    constructor
    · intro a
      by_cases ha : a = sender
      · subst ha
        simpa using List.Nodup.append (hnd a) (List.nodup_singleton dataId)
          (by simpa [List.disjoint_singleton] using hnotmem a)
      · simpa [ha] using hnd a
    · intro a id h
      by_cases ha : a = sender
      · subst ha
        simp only [if_pos rfl] at h
        rcases List.mem_append.mp h with hin | hin
        · have hold := hmem _ id hin
          have hid : ¬ id = dataId := by
            intro hidq; subst hidq; exact hnotmem _ hin
          simpa [hid] using hold
        · have hid : id = dataId := by simpa using hin
          subst hid
          simp
      · simp only [if_neg ha] at h
        have hold := hmem a id h
        have hid : ¬ id = dataId := by
          intro hidq; subst hidq; exact hnotmem a h
        simpa [hid] using hold

theorem dataHashWF_reachable (st : DataHashState) (h : DataHashReachable st) :
    DataHashWF st := by
  induction h with
  | init => exact dataHashWF_initial
  | store st sender dataId dataHash dataType timestamp _ ih =>
      exact dataHashWF_store st ih sender dataId dataHash dataType timestamp

theorem auditWF_initial : AuditWF initialAuditState := by
  intro a i h
  simp [initialAuditState] at h

theorem logAt_append_lt (st : AuditState) (log : AccessLog) (pidx : Addr → List Nat)
    (i : Nat) (h : i < st.accessLogs.length) :
    logAt { accessLogs := st.accessLogs ++ [log], patientAccessLogs := pidx } i =
      logAt st i := by
  unfold logAt
  exact List.getD_append _ _ _ _ h

theorem logAt_append_last (st : AuditState) (log : AccessLog)
    (pidx : Addr → List Nat) :
    logAt { accessLogs := st.accessLogs ++ [log], patientAccessLogs := pidx }
      st.accessLogs.length = log := by
  unfold logAt
  rw [List.getD_append_right _ _ _ _ (Nat.le_refl _)]
  simp

theorem auditWF_log (st : AuditState) (hwf : AuditWF st) (patient accessor : Addr)
    (resourceId accessType : String) (timestamp : Nat) :
    AuditWF (execLogAccess st patient accessor resourceId accessType timestamp) := by
  by_cases h1 : patient = 0
  case pos =>
    rw [execLogAccess_of_fail st patient accessor resourceId accessType timestamp
      (by unfold logAccess isOk; rw [if_neg (by simpa using h1)])]
    exact hwf
  by_cases h2 : accessor = 0
  case pos =>
    rw [execLogAccess_of_fail st patient accessor resourceId accessType timestamp
      (by unfold logAccess isOk; rw [if_pos h1, if_neg (by simpa using h2)])]
    exact hwf
  by_cases h3 : resourceId.length > 0
  case neg =>
    rw [execLogAccess_of_fail st patient accessor resourceId accessType timestamp
      (by unfold logAccess isOk; rw [if_pos h1, if_pos h2, if_neg h3])]
    exact hwf
  by_cases h4 : accessType.length > 0
  case neg =>
    rw [execLogAccess_of_fail st patient accessor resourceId accessType timestamp
      (by unfold logAccess isOk; rw [if_pos h1, if_pos h2, if_pos h3, if_neg h4])]
    exact hwf
  rw [execLogAccess_ok st patient accessor resourceId accessType timestamp h1 h2 h3 h4]
  intro a i h
  simp only [List.length_append, List.length_cons, List.length_nil]
  by_cases ha : a = patient
  · subst ha
    simp only [if_pos rfl] at h
    rcases List.mem_append.mp h with hin | hin
    · obtain ⟨hlt, hpat⟩ := hwf a i hin
      refine ⟨by omega, ?_⟩
      rw [logAt_append_lt st _ _ i hlt]
      exact hpat
    · have hi : i = st.accessLogs.length := by simpa using hin
      subst hi
      refine ⟨by omega, ?_⟩
      rw [logAt_append_last st _ _]
  · simp only [if_neg ha] at h
    obtain ⟨hlt, hpat⟩ := hwf a i h
    refine ⟨by omega, ?_⟩
    rw [logAt_append_lt st _ _ i hlt]
    exact hpat

theorem auditWF_reachable (st : AuditState) (h : AuditReachable st) : AuditWF st := by
  induction h with
  | init => exact auditWF_initial
  | log st patient accessor resourceId accessType timestamp _ ih =>
      exact auditWF_log st ih patient accessor resourceId accessType timestamp

/-! ## Claim theorems -/

/-- Claim C3: grantConsent fails (reverts) exactly when the grantee is the
null principal, or validFrom >= validUntil, or validUntil is not strictly
after the current time; a rejected call leaves all consent state untouched;
in particular, when validUntil < now at creation the call fails and a pair
with no prior record still has none afterward. -/
theorem C3_grantConsent_validation (st : ConsentState) (sender provider : Addr)
    (al : String) (sd ed : Nat) (pu : String) (now : Nat) :
    (isOk (grantConsent st sender provider al sd ed pu now) = false ↔
      provider = 0 ∨ sd ≥ ed ∨ ¬ ed > now) ∧
    (isOk (grantConsent st sender provider al sd ed pu now) = false →
      execGrantConsent st sender provider al sd ed pu now = st) ∧
    (ed < now → (st sender provider).exists_ = false →
      isOk (grantConsent st sender provider al sd ed pu now) = false ∧
      ((execGrantConsent st sender provider al sd ed pu now) sender provider).exists_ =
        false) := by
  have hiff := grantConsent_fails_iff st sender provider al sd ed pu now
  refine ⟨?_, ?_, ?_⟩
  · rw [hiff]
    constructor
    · rintro (h | h | h)
      · exact Or.inl h
      · exact Or.inr (Or.inl h)
      · exact Or.inr (Or.inr (by omega))
    · rintro (h | h | h)
      · exact Or.inl h
      · exact Or.inr (Or.inl h)
      · exact Or.inr (Or.inr (by omega))
  · exact execGrantConsent_of_fail st sender provider al sd ed pu now
  · intro hlt hex
    have hfail : isOk (grantConsent st sender provider al sd ed pu now) = false :=
      hiff.mpr (Or.inr (Or.inr (by omega)))
    refine ⟨hfail, ?_⟩
    rw [execGrantConsent_of_fail st sender provider al sd ed pu now hfail]
    exact hex

/-- Witness for C3 at a concrete input: granting with validUntil in the past
fails and leaves the fresh state without a record for the pair. -/
theorem C3_grantConsent_validation_witness :
    isOk (grantConsent initialConsentState 1 2 "full" 3 10 "chk" 20) = false ∧
    ((execGrantConsent initialConsentState 1 2 "full" 3 10 "chk" 20) 1 2).exists_ =
      false :=
  (C3_grantConsent_validation initialConsentState 1 2 "full" 3 10 "chk" 20).2.2
    (by decide) rfl

/-- Claim C4: checkConsent is a pure read that never fails; its valid flag is
true exactly when a grant exists for the pair and validFrom <= now <=
validUntil, and on a well-formed state an absent pair yields the not-found
shape (valid=false, empty fields). Totality is expressed by checkConsent
returning a plain tuple rather than an Except. -/
theorem C4_checkConsent_correct (st : ConsentState) (patient provider : Addr)
    (now : Nat) :
    ((checkConsent st patient provider now).1 = true ↔
      (st patient provider).exists_ = true ∧
      (st patient provider).startDate ≤ now ∧ now ≤ (st patient provider).endDate) ∧
    (ConsentWF st → (st patient provider).exists_ = false →
      checkConsent st patient provider now = (false, "", 0, 0, "")) := by
  constructor
  · unfold checkConsent
    simp only [Bool.and_eq_true, decide_eq_true_eq]
    constructor
    · rintro ⟨⟨h1, h2⟩, h3⟩
      exact ⟨h1, h2, h3⟩
    · rintro ⟨h1, h2, h3⟩
      exact ⟨⟨h1, h2⟩, h3⟩
  · intro hwf hex
    have hempty : st patient provider = emptyConsent := (hwf patient provider).2 hex
    unfold checkConsent
    rw [hempty]
    rfl

/-- Witness for C4 at a concrete input: a valid in-window grant reports
valid=true, and on the fresh state an absent pair yields the not-found shape. -/
theorem C4_checkConsent_correct_witness :
    ((checkConsent (execGrantConsent initialConsentState 1 2 "full" 3 10 "chk" 5)
        1 2 7).1 = true ↔
      ((execGrantConsent initialConsentState 1 2 "full" 3 10 "chk" 5) 1 2).exists_ =
          true ∧
        ((execGrantConsent initialConsentState 1 2 "full" 3 10 "chk" 5) 1 2).startDate
            ≤ 7 ∧
        7 ≤ ((execGrantConsent initialConsentState 1 2 "full" 3 10 "chk" 5)
            1 2).endDate) ∧
    checkConsent initialConsentState 3 4 7 = (false, "", 0, 0, "") :=
  ⟨(C4_checkConsent_correct (execGrantConsent initialConsentState 1 2 "full" 3 10 "chk" 5)
      1 2 7).1,
   (C4_checkConsent_correct initialConsentState 3 4 7).2 consentWF_initial rfl⟩

/-- Claim C6: verifyDataHash never raises; for a registered contentId,
isValid is full-string equality between the candidate digest and the stored
digest; after an update to a different digest, verifying the old digest
yields isValid=false and verifying the new digest yields isValid=true; for
an unregistered contentId it returns isValid=false with empty fields.
Totality is expressed by verifyDataHash returning a plain tuple. -/
theorem C6_verifyDataHash_correct (st : DataHashState) (sender : Addr)
    (dataId candidate newHash newType : String) (ts : Nat) :
    ((st.dataHashes dataId).exists_ = true →
      ((verifyDataHash st dataId candidate).1 = true ↔
        (st.dataHashes dataId).dataHash = candidate)) ∧
    ((st.dataHashes dataId).exists_ = false →
      verifyDataHash st dataId candidate = (false, "", 0, "")) ∧
    ((st.dataHashes dataId).exists_ = true → dataId.length > 0 → newHash.length > 0 →
      newType.length > 0 → (st.dataHashes dataId).dataHash ≠ newHash →
      (verifyDataHash (execStoreDataHash st sender dataId newHash newType ts) dataId
          (st.dataHashes dataId).dataHash).1 = false ∧
      (verifyDataHash (execStoreDataHash st sender dataId newHash newType ts) dataId
          newHash).1 = true) := by
  refine ⟨?_, ?_, ?_⟩
  · intro hex
    simp [verifyDataHash, hex]
  · intro hex
    simp [verifyDataHash, hex]
  · intro hex h1 h2 h3 hne
    rw [execStoreDataHash_of_ok st sender dataId newHash newType ts _ _
      (storeDataHash_update st sender dataId newHash newType ts h1 h2 h3 hex)]
    constructor
    · simp only [verifyDataHash, hex]
      simp
      exact fun h => absurd h.symm hne
    · simp only [verifyDataHash, hex]
      simp

/-- Witness for C6 at a concrete input: one stored record, matching and
mismatching candidates, and the old/new digests after an update. -/
theorem C6_verifyDataHash_correct_witness :
    (((execStoreDataHash initialDataHashState 1 "rec-9" "abc123" "lab_result"
          7).dataHashes "rec-9").exists_ = true →
      ((verifyDataHash (execStoreDataHash initialDataHashState 1 "rec-9" "abc123"
            "lab_result" 7) "rec-9" "abc123").1 = true ↔
        ((execStoreDataHash initialDataHashState 1 "rec-9" "abc123" "lab_result"
            7).dataHashes "rec-9").dataHash = "abc123")) ∧
    ((initialDataHashState.dataHashes "unknown-id").exists_ = false →
      verifyDataHash initialDataHashState "unknown-id" "abc123" = (false, "", 0, "")) :=
  ⟨(C6_verifyDataHash_correct (execStoreDataHash initialDataHashState 1 "rec-9"
      "abc123" "lab_result" 7) 1 "rec-9" "abc123" "zzz" "t" 9).1,
   (C6_verifyDataHash_correct initialDataHashState 1 "unknown-id" "abc123" "zzz"
      "t" 9).2.1⟩

/-- Claim C7: revokeConsent fails exactly when the grantee is the null
principal or no grant exists for the pair; a failed call changes no state;
a successful call deletes the grant, so a following checkConsent returns
the not-found shape. -/
theorem C7_revokeConsent_correct (st : ConsentState) (sender provider : Addr)
    (now : Nat) :
    (isOk (revokeConsent st sender provider) = false ↔
      provider = 0 ∨ (st sender provider).exists_ = false) ∧
    (isOk (revokeConsent st sender provider) = false →
      execRevokeConsent st sender provider = st) ∧
    (isOk (revokeConsent st sender provider) = true →
      (execRevokeConsent st sender provider) sender provider = emptyConsent ∧
      checkConsent (execRevokeConsent st sender provider) sender provider now =
        (false, "", 0, 0, "")) := by
  refine ⟨revokeConsent_fails_iff st sender provider, ?_, ?_⟩
  · exact execRevokeConsent_of_fail st sender provider
  · intro hok
    have h := (revokeConsent_fails_iff st sender provider).not.mpr
    have hcond : ¬ (provider = 0 ∨ (st sender provider).exists_ = false) := by
      intro hc
      rw [(revokeConsent_fails_iff st sender provider).mpr hc] at hok
      exact Bool.false_ne_true hok
    push_neg at hcond
    obtain ⟨h1, h2⟩ := hcond
    have hslot : (execRevokeConsent st sender provider) sender provider = emptyConsent := by
      rw [execRevokeConsent_of_ok st sender provider _ _
        (revokeConsent_ok st sender provider h1 (by simpa using h2))]
      simp [setConsent]
    refine ⟨hslot, ?_⟩
    unfold checkConsent
    rw [hslot]
    rfl

/-- Witness for C7 at a concrete input: revoking an absent pair on the fresh
state fails and is a no-op; revoking an existing grant deletes it. -/
theorem C7_revokeConsent_correct_witness :
    (isOk (revokeConsent initialConsentState 1 2) = false ↔
      (2 : Addr) = 0 ∨ (initialConsentState 1 2).exists_ = false) ∧
    (isOk (revokeConsent (execGrantConsent initialConsentState 1 2 "full" 3 10 "chk" 5)
        1 2) = true →
      (execRevokeConsent (execGrantConsent initialConsentState 1 2 "full" 3 10 "chk" 5)
          1 2) 1 2 = emptyConsent ∧
      checkConsent (execRevokeConsent
          (execGrantConsent initialConsentState 1 2 "full" 3 10 "chk" 5) 1 2) 1 2 7 =
        (false, "", 0, 0, "")) :=
  ⟨(C7_revokeConsent_correct initialConsentState 1 2 7).1,
   (C7_revokeConsent_correct
      (execGrantConsent initialConsentState 1 2 "full" 3 10 "chk" 5) 1 2 7).2.2⟩

/-- Claim C8: hasValidConsent is extensionally the valid component of
checkConsent, at every state, pair and time. -/
theorem C8_hasValidConsent_eq_check (st : ConsentState) (patient provider : Addr)
    (now : Nat) :
    hasValidConsent st patient provider now = (checkConsent st patient provider now).1 :=
  rfl

/-- Counterexample to claim C1 as stated: storeDataHash on an existing
contentId with non-empty arguments does not preserve all original creation
metadata — it overwrites the stored timestamp. Concretely, after storing
"rec-1" at timestamp 5 and updating it at timestamp 9, the stored timestamp
is 9, not the original 5. -/
theorem C1_counterexample :
    (c1State.dataHashes "rec-1").exists_ = true ∧
    (c1State.dataHashes "rec-1").timestamp = 5 ∧
    ((execStoreDataHash c1State 2 "rec-1" "h2" "t2" 9).dataHashes "rec-1").timestamp = 9 ∧
    (9 : Nat) ≠ 5 :=
  ⟨rfl, rfl, rfl, by decide⟩

/-- Claim C1 (amended): storeDataHash on an existing contentId with non-empty
arguments replaces the stored digest, contentType and timestamp, preserves
the record's owner and existence flag, changes no other record and no
owner id list, and emits DataHashUpdated carrying both the old digest and
the new digest. -/
theorem C1_storeDataHash_update (st : DataHashState) (sender : Addr)
    (dataId dataHash dataType : String) (ts : Nat)
    (h1 : dataId.length > 0) (h2 : dataHash.length > 0) (h3 : dataType.length > 0)
    (hex : (st.dataHashes dataId).exists_ = true) :
    ∃ st', storeDataHash st sender dataId dataHash dataType ts =
        Except.ok (st', DataHashEvent.dataHashUpdated dataId
          (st.dataHashes dataId).dataHash dataHash ts sender) ∧
      st'.dataHashes dataId =
        { dataHash := dataHash, timestamp := ts, dataType := dataType,
          owner := (st.dataHashes dataId).owner, exists_ := true } ∧
      (∀ j, j ≠ dataId → st'.dataHashes j = st.dataHashes j) ∧
      st'.ownerDataIds = st.ownerDataIds := by
  refine ⟨_, storeDataHash_update st sender dataId dataHash dataType ts h1 h2 h3 hex,
    ?_, ?_, rfl⟩
  · simp [hex]
  · intro j hj
    simp [hj]

/-- Witness for the amended C1 at a concrete input: updating "rec-1" from
digest "h1" to "h2" (as caller 2) replaces digest, type and timestamp,
keeps owner 1 and the id lists, and emits DataHashUpdated with "h1" and "h2". -/
theorem C1_storeDataHash_update_witness :
    (c1State.dataHashes "rec-1").exists_ = true ∧
    ∃ st', storeDataHash c1State 2 "rec-1" "h2" "t2" 9 =
        Except.ok (st', DataHashEvent.dataHashUpdated "rec-1"
          (c1State.dataHashes "rec-1").dataHash "h2" 9 2) ∧
      st'.dataHashes "rec-1" =
        { dataHash := "h2", timestamp := 9, dataType := "t2",
          owner := (c1State.dataHashes "rec-1").owner, exists_ := true } ∧
      (∀ j, j ≠ "rec-1" → st'.dataHashes j = c1State.dataHashes j) ∧
      st'.ownerDataIds = c1State.ownerDataIds :=
  ⟨rfl, C1_storeDataHash_update c1State 2 "rec-1" "h2" "t2" 9
    (by decide) (by decide) (by decide) rfl⟩

/-- Counterexample to claim C9 as stated: at time 20 the grant (1, 2) exists
and is expired, and checkConsent does return the stored fields, but they are
not non-empty — the stored accessLevel and purpose are empty strings and
validFrom is 0, because grantConsent never validates those fields. -/
theorem C9_counterexample :
    ConsentReachable c9State ∧
    (c9State 1 2).exists_ = true ∧
    (c9State 1 2).endDate < 20 ∧
    checkConsent c9State 1 2 20 = (false, "", 0, 10, "") ∧
    (c9State 1 2).accessLevel = "" ∧
    (c9State 1 2).purpose = "" ∧
    (c9State 1 2).startDate = 0 :=
  ⟨ConsentReachable.grant initialConsentState 1 2 "" 0 10 "" 5 ConsentReachable.init,
   rfl, by decide, rfl, rfl, rfl, rfl⟩

/-- Claim C9 (amended): when a grant exists for the pair but now lies outside
[validFrom, validUntil], checkConsent returns valid=false together with the
stored accessLevel, validFrom, validUntil and purpose; on a reachable state
the returned validUntil is nonzero (grantConsent enforces
validFrom < validUntil), while an absent pair returns validUntil = 0, so a
caller can distinguish an expired grant from an absent one by the returned
validUntil — but not by the string fields, which may be empty. -/
theorem C9_expired_vs_absent (st : ConsentState) (hr : ConsentReachable st)
    (patient provider : Addr) (now : Nat)
    (hex : (st patient provider).exists_ = true)
    (hout : now < (st patient provider).startDate ∨ (st patient provider).endDate < now) :
    checkConsent st patient provider now =
      (false, (st patient provider).accessLevel, (st patient provider).startDate,
       (st patient provider).endDate, (st patient provider).purpose) ∧
    (st patient provider).endDate ≠ 0 ∧
    (∀ p q, (st p q).exists_ = false →
      checkConsent st p q now = (false, "", 0, 0, "")) := by
  have hwf := consentWF_reachable st hr
  refine ⟨?_, ?_, ?_⟩
  · unfold checkConsent
    have hvalid : ((st patient provider).exists_ &&
        decide (now ≥ (st patient provider).startDate) &&
        decide (now ≤ (st patient provider).endDate)) = false := by
      rcases hout with h | h
      · have : decide (now ≥ (st patient provider).startDate) = false := by
          simpa using (by omega : ¬ now ≥ (st patient provider).startDate)
        simp [this]
      · have : decide (now ≤ (st patient provider).endDate) = false := by
          simpa using (by omega : ¬ now ≤ (st patient provider).endDate)
        simp [this]
    show ((st patient provider).exists_ &&
        decide (now ≥ (st patient provider).startDate) &&
        decide (now ≤ (st patient provider).endDate), _, _, _, _) = _
    rw [hvalid]
  · have := (hwf patient provider).1 hex
    omega
  · intro p q hpq
    have hempty : st p q = emptyConsent := (hwf p q).2 hpq
    unfold checkConsent
    rw [hempty]
    rfl

/-- Witness for the amended C9 at a concrete input: the expired grant (1, 2)
of c9State at time 20 reports valid=false with validUntil 10 (nonzero), and
any absent pair reports validUntil 0. -/
theorem C9_expired_vs_absent_witness :
    checkConsent c9State 1 2 20 =
      (false, (c9State 1 2).accessLevel, (c9State 1 2).startDate,
       (c9State 1 2).endDate, (c9State 1 2).purpose) ∧
    (c9State 1 2).endDate ≠ 0 ∧
    (∀ p q, (c9State p q).exists_ = false →
      checkConsent c9State p q 20 = (false, "", 0, 0, "")) :=
  C9_expired_vs_absent c9State
    (ConsentReachable.grant initialConsentState 1 2 "" 0 10 "" 5 ConsentReachable.init)
    1 2 20 rfl (Or.inr (by decide))

theorem singlePassScan_eq (p : Nat → Bool) (idxs : List Nat) :
    ∀ maxResults, singlePassScan p idxs maxResults = (idxs.filter p).take maxResults := by
  induction idxs with
  | nil => intro m; simp [singlePassScan]
  | cons i rest ih =>
    intro m
    by_cases hm : m = 0
    · subst hm
      rw [singlePassScan, if_pos rfl]
      simp
    · by_cases hp : p i
      · obtain ⟨k, rfl⟩ : ∃ k, m = k + 1 := ⟨m - 1, by omega⟩
        rw [singlePassScan, if_neg hm, if_pos hp, List.filter_cons, if_pos hp,
          List.take_succ_cons]
        simp only [Nat.add_sub_cancel]
        rw [ih k]
      · rw [singlePassScan, if_neg hm, if_neg hp, List.filter_cons, if_neg hp, ih m]

/-- Claim C2: a successful logAccess appends exactly one entry to the global
log (the per-patient count increases by exactly 1), assigns it the next
position st.accessLogs.length, strictly above every position already indexed,
appends that position to the patient's index list, extends the by-accessor
secondary ordering by exactly that position, leaves every other patient's
index list unchanged, and leaves every previously appended entry intact
(the global log only grows by appending; all read operations are pure). -/
theorem C2_logAccess_append (st : AuditState) (hwf : AuditWF st)
    (patient accessor : Addr) (resourceId accessType : String) (timestamp : Nat)
    (h1 : patient ≠ 0) (h2 : accessor ≠ 0)
    (h3 : resourceId.length > 0) (h4 : accessType.length > 0) :
    ∃ st', logAccess st patient accessor resourceId accessType timestamp =
        Except.ok (st', AuditEvent.accessLogged patient accessor resourceId
          accessType timestamp) ∧
      getAccessLogCount st' patient = getAccessLogCount st patient + 1 ∧
      st'.accessLogs = st.accessLogs ++
        [{ patient := patient, accessor := accessor, resourceId := resourceId,
           accessType := accessType, timestamp := timestamp }] ∧
      st'.patientAccessLogs patient =
        st.patientAccessLogs patient ++ [st.accessLogs.length] ∧
      (∀ a, a ≠ patient → st'.patientAccessLogs a = st.patientAccessLogs a) ∧
      (∀ a i, i ∈ st.patientAccessLogs a → i < st.accessLogs.length) ∧
      (∀ i, i < st.accessLogs.length → logAt st' i = logAt st i) ∧
      (List.range st'.accessLogs.length).filter (byAccessor st' accessor) =
        (List.range st.accessLogs.length).filter (byAccessor st accessor) ++
          [st.accessLogs.length] ∧
      (∀ m, getAccessLogsByAccessor st' accessor m =
        ((List.range st.accessLogs.length).filter (byAccessor st accessor) ++
          [st.accessLogs.length]).take m) := by
  have hfilter : ∀ (st' : AuditState),
      st' = { accessLogs := st.accessLogs ++
                [{ patient := patient, accessor := accessor, resourceId := resourceId,
                   accessType := accessType, timestamp := timestamp }],
              patientAccessLogs := fun a =>
                if a = patient then st.patientAccessLogs a ++ [st.accessLogs.length]
                else st.patientAccessLogs a } →
      (List.range st'.accessLogs.length).filter (byAccessor st' accessor) =
        (List.range st.accessLogs.length).filter (byAccessor st accessor) ++
          [st.accessLogs.length] := by
    intro st' hst'
    subst hst'
    have hlen : (st.accessLogs ++
        [({ patient := patient, accessor := accessor, resourceId := resourceId,
            accessType := accessType, timestamp := timestamp } : AccessLog)]).length =
        st.accessLogs.length + 1 := by simp
    simp only [hlen]
    rw [List.range_succ, List.filter_append]
    congr 1
    · apply List.filter_congr
      intro x hx
      have hxlt : x < st.accessLogs.length := List.mem_range.mp hx
      unfold byAccessor
      rw [logAt_append_lt st _ _ x hxlt]
    · have hmatch : byAccessor
          { accessLogs := st.accessLogs ++
              [{ patient := patient, accessor := accessor, resourceId := resourceId,
                 accessType := accessType, timestamp := timestamp }],
            patientAccessLogs := fun a =>
              if a = patient then st.patientAccessLogs a ++ [st.accessLogs.length]
              else st.patientAccessLogs a } accessor st.accessLogs.length = true := by
        unfold byAccessor
        rw [logAt_append_last st _ _]
        simp
      simp [hmatch]
  refine ⟨_, logAccess_ok st patient accessor resourceId accessType timestamp h1 h2 h3 h4,
    ?_, rfl, ?_, ?_, ?_, ?_, hfilter _ rfl, ?_⟩
  · simp [getAccessLogCount]
  · simp
  · intro a ha
    simp [ha]
  · intro a i hi
    exact (hwf a i hi).1
  · intro i hi
    exact logAt_append_lt st _ _ i hi
  · intro m
    rw [getAccessLogsByAccessor_eq, hfilter _ rfl]

/-- Witness for C2 at a concrete input: logging an access on the fresh state
appends one entry and raises the per-patient count from 0 to 1. -/
theorem C2_logAccess_append_witness :
    ∃ st', logAccess initialAuditState 1 2 "r1" "view" 5 =
        Except.ok (st', AuditEvent.accessLogged 1 2 "r1" "view" 5) ∧
      getAccessLogCount st' 1 = getAccessLogCount initialAuditState 1 + 1 := by
  obtain ⟨st', hok, hcount, _⟩ :=
    C2_logAccess_append initialAuditState auditWF_initial 1 2 "r1" "view" 5
      (by decide) (by decide) (by decide) (by decide)
  exact ⟨st', hok, hcount⟩

/-- Claim C5: getAccessLogsInTimeRange fails exactly when startTime > endTime;
otherwise it returns at most maxResults positions, each holding a log of the
queried patient with timestamp in [startTime, endTime], listed as a
subsequence of the patient's index list (original insertion order), and the
two-pass count-then-fill result equals the single forward pass with early
exit at maxResults. -/
theorem C5_getAccessLogsInTimeRange_correct (st : AuditState) (hwf : AuditWF st)
    (patient : Addr) (startTime endTime maxResults : Nat) :
    (isOk (getAccessLogsInTimeRange st patient startTime endTime maxResults) = false ↔
      endTime < startTime) ∧
    (startTime ≤ endTime →
      ∃ res, getAccessLogsInTimeRange st patient startTime endTime maxResults =
          Except.ok res ∧
        res.length ≤ maxResults ∧
        (∀ i ∈ res, (logAt st i).patient = patient ∧
          startTime ≤ (logAt st i).timestamp ∧ (logAt st i).timestamp ≤ endTime) ∧
        res.Sublist (st.patientAccessLogs patient) ∧
        res = singlePassScan (inTimeRange st startTime endTime)
          (st.patientAccessLogs patient) maxResults) := by
  constructor
  · unfold getAccessLogsInTimeRange
    by_cases h : startTime ≤ endTime
    · simp only [h, if_pos, isOk]
      constructor
      · intro hfalse
        exact absurd hfalse (by simp)
      · intro hlt
        omega
    · simp [h, isOk]
      omega
  · intro h
    refine ⟨_, getAccessLogsInTimeRange_ok st patient startTime endTime maxResults h,
      ?_, ?_, ?_, ?_⟩
    · rw [List.length_take]
      exact Nat.min_le_left _ _
    · intro i hi
      have hi' : i ∈ (st.patientAccessLogs patient).filter
          (inTimeRange st startTime endTime) := List.take_subset _ _ hi
      obtain ⟨hmem, hp⟩ := List.mem_filter.mp hi'
      simp only [inTimeRange, Bool.and_eq_true, decide_eq_true_eq] at hp
      exact ⟨(hwf patient i hmem).2, hp.1, hp.2⟩
    · exact (List.take_sublist _ _).trans (List.filter_sublist _)
    · rw [singlePassScan_eq]

/-- Witness for C5 at a concrete input: on c5State, querying patient 1 in
[0, 10] with cap 7 succeeds with at most 7 in-range positions of patient 1. -/
theorem C5_getAccessLogsInTimeRange_correct_witness :
    ∃ res, getAccessLogsInTimeRange c5State 1 0 10 7 = Except.ok res ∧
      res.length ≤ 7 ∧
      (∀ i ∈ res, (logAt c5State i).patient = 1 ∧
        0 ≤ (logAt c5State i).timestamp ∧ (logAt c5State i).timestamp ≤ 10) ∧
      res.Sublist (c5State.patientAccessLogs 1) ∧
      res = singlePassScan (inTimeRange c5State 0 10) (c5State.patientAccessLogs 1) 7 :=
  (C5_getAccessLogsInTimeRange_correct c5State
    (auditWF_log (execLogAccess initialAuditState 1 2 "r1" "view" 5)
      (auditWF_log initialAuditState auditWF_initial 1 2 "r1" "view" 5)
      1 3 "r2" "view" 50)
    1 0 10 7).2 (by decide)

/-- Claim C10: storeDataHash appends the contentId to the caller's id list
only on first creation, never on update: updating an existing contentId
leaves every owner's id list (hence getDataHashCount) unchanged, first
creation appends exactly the new id to the caller's list, and on any
reachable state each contentId appears at most once per owner list and only
in the list of the owner that first registered it. -/
theorem C10_owner_enumeration (st : DataHashState) (hr : DataHashReachable st)
    (sender : Addr) (dataId dataHash dataType : String) (ts : Nat) :
    ((st.dataHashes dataId).exists_ = true →
      (execStoreDataHash st sender dataId dataHash dataType ts).ownerDataIds =
        st.ownerDataIds ∧
      ∀ a, getDataHashCount (execStoreDataHash st sender dataId dataHash dataType ts) a =
        getDataHashCount st a) ∧
    ((st.dataHashes dataId).exists_ = false → dataId.length > 0 → dataHash.length > 0 →
      dataType.length > 0 →
      (execStoreDataHash st sender dataId dataHash dataType ts).ownerDataIds sender =
        st.ownerDataIds sender ++ [dataId] ∧
      ∀ a, a ≠ sender →
        (execStoreDataHash st sender dataId dataHash dataType ts).ownerDataIds a =
          st.ownerDataIds a) ∧
    (∀ a, (st.ownerDataIds a).Nodup) ∧
    (∀ a id, id ∈ st.ownerDataIds a → (st.dataHashes id).owner = a) := by
  have hwf := dataHashWF_reachable st hr
  refine ⟨?_, ?_, fun a => hwf.1 a, fun a id h => (hwf.2 a id h).2⟩
  · intro hex
    by_cases h1 : dataId.length > 0
    case neg =>
      rw [execStoreDataHash_of_fail st sender dataId dataHash dataType ts
        (by unfold storeDataHash isOk; rw [if_neg h1])]
      exact ⟨rfl, fun a => rfl⟩
    by_cases h2 : dataHash.length > 0
    case neg =>
      rw [execStoreDataHash_of_fail st sender dataId dataHash dataType ts
        (by unfold storeDataHash isOk; rw [if_pos h1, if_neg h2])]
      exact ⟨rfl, fun a => rfl⟩
    by_cases h3 : dataType.length > 0
    case neg =>
      rw [execStoreDataHash_of_fail st sender dataId dataHash dataType ts
        (by unfold storeDataHash isOk; rw [if_pos h1, if_pos h2, if_neg h3])]
      exact ⟨rfl, fun a => rfl⟩
    rw [execStoreDataHash_of_ok st sender dataId dataHash dataType ts _ _
      (storeDataHash_update st sender dataId dataHash dataType ts h1 h2 h3 hex)]
    exact ⟨rfl, fun a => rfl⟩
  · intro hex h1 h2 h3
    rw [execStoreDataHash_of_ok st sender dataId dataHash dataType ts _ _
      (storeDataHash_create st sender dataId dataHash dataType ts h1 h2 h3 hex)]
    constructor
    · simp
    · intro a ha
      simp [ha]

/-- Witness for C10 at a concrete input: updating the existing record "id1"
of c10State changes no owner id list and no count, and the owner lists of
c10State are duplicate-free. -/
theorem C10_owner_enumeration_witness :
    (c10State.dataHashes "id1").exists_ = true ∧
    (execStoreDataHash c10State 2 "id1" "h2" "t2" 9).ownerDataIds =
      c10State.ownerDataIds ∧
    (∀ a, getDataHashCount (execStoreDataHash c10State 2 "id1" "h2" "t2" 9) a =
      getDataHashCount c10State a) ∧
    (∀ a, (c10State.ownerDataIds a).Nodup) := by
  obtain ⟨hupd, _, hnd, _⟩ :=
    C10_owner_enumeration c10State
      (DataHashReachable.store initialDataHashState 1 "id1" "h" "t" 0
        DataHashReachable.init) 2 "id1" "h2" "t2" 9
  obtain ⟨ho, hc⟩ := hupd rfl
  exact ⟨rfl, ho, hc, hnd⟩

end MedSecure
